import Mathlib

/-!
Verification of the ether data-plane core (Link, Port, Hub) against its
specification.  The Rust sources in src/ether/src are shallowly embedded:
each actor's mutable state becomes a structure, each `on_event` handler a
pure function returning the updated state together with the list of
messages it sent, and every `panic!`/`assert` failure is modelled as the
handler returning `none`.  Capabilities (`Cap<_>`) are modelled as opaque
natural-number identities; randomness (the fresh nonce drawn on a Reset
collision) is passed in as an explicit oracle argument.
-/

namespace Ether

/-- A capability handle: an opaque actor identity with equality. -/
abbrev Cap := Nat

/-- TreeId: a routing tag derived from a 32-bit nonce (frame.rs interface). -/
structure TreeId where
  nonce : Nat
  deriving DecidableEq, Repr

/-- Payload: an opaque data block tagged with a TreeId (frame.rs interface). -/
structure Payload where
  id : TreeId
  data : List Nat
  deriving DecidableEq, Repr

/-- The blank payload carried by `Frame::new_entangled` before `set_payload`. -/
def emptyPayload : Payload := { id := { nonce := 0 }, data := [] }

/-- The protocol i-state tags TICK, TECK, TACK, RTECK (frame.rs interface). -/
inductive IState where
  | TICK
  | TECK
  | TACK
  | RTECK
  deriving DecidableEq, Repr

/-- Frame: either a Reset carrying a nonce, or an Entangled frame carrying a
TreeId, an i-state, a u-state echo and a payload (frame.rs interface). -/
inductive Frame where
  | reset (nonce : Nat)
  | entangled (id : TreeId) (i : IState) (u : IState) (payload : Payload)
  deriving DecidableEq, Repr

/-- LinkState from link.rs: Stop, Init, Run, Live. -/
inductive LinkState where
  | Stop
  | Init
  | Run
  | Live
  deriving DecidableEq, Repr

/-- LinkEvent from link.rs. -/
inductive LinkEvent where
  | frame (f : Frame)
  | start (cust : Cap)
  | poll (cust : Cap)
  | stop (cust : Cap)
  | read (cust : Cap)
  | write (cust : Cap) (p : Payload)
  deriving DecidableEq, Repr

/-- A message emitted by the Link actor: a frame to the wire, a status
report to a port, a payload delivery to the reader port
(`PortEvent::LinkToPortWrite`), or a write acknowledgement to the writer
port (`PortEvent::LinkToPortRead`). -/
inductive LinkMsg where
  | wireFrame (dest : Cap) (f : Frame)
  | portStatus (dest : Cap) (state : LinkState) (balance : Int)
  | linkToPortWrite (dest : Cap) (p : Payload)
  | linkToPortRead (dest : Cap)
  deriving DecidableEq, Repr

/-- The Link actor's state (struct Link in link.rs). -/
structure Link where
  wire : Cap
  nonce : Nat
  state : LinkState
  balance : Int
  reader : Option Cap
  inbound : Option Payload
  writer : Option Cap
  outbound : Option Payload
  deriving DecidableEq, Repr

/-- Link::create from link.rs: initial state behind the returned capability. -/
def Link.create (wire : Cap) (nonce : Nat) : Link :=
  { wire := wire
    nonce := nonce
    state := .Stop
    balance := 0
    reader := none
    inbound := none
    writer := none
    outbound := none }

/-- Link::on_event from link.rs.  `fresh` is the random 32-bit nonce the
handler would draw on a Reset collision.  `none` models a panic or a
failed assert; otherwise the result is the updated state and the messages
sent, in send order. -/
def Link.on_event (s : Link) (e : LinkEvent) (fresh : Nat) :
    Option (Link × List LinkMsg) :=
  match e with
  | .frame f =>
    if s.state = LinkState.Stop then
      some (s, []) -- early exit when link is stopped
    else
      match f with
      | .reset peer =>
        let s1 : Link := { s with state := .Init }
        if s1.nonce < peer then
          some (s1, []) -- waiting: peer with larger nonce drives
        else if peer < s1.nonce then
          some (s1, [LinkMsg.wireFrame s1.wire
            (.entangled { nonce := s1.nonce } .TICK .TICK emptyPayload)])
        else
          some ({ s1 with nonce := fresh },
            [LinkMsg.wireFrame s1.wire (.reset fresh)])
      | .entangled _ i _ fp =>
        let s1 : Link := { s with state := .Live }
        match i with
        | .TICK =>
          let step :=
            if s1.balance = 1 then
              match s1.reader, s1.inbound with
              | some r, some p =>
                ({ s1 with reader := none, inbound := none, balance := 0 },
                 [LinkMsg.linkToPortWrite r p])
              | _, _ => (s1, [])
            else (s1, [])
          let s2 := step.1
          if s2.balance = 0 then
            match s2.outbound with
            | none =>
              some (s2, step.2 ++ [LinkMsg.wireFrame s2.wire
                (.entangled { nonce := s2.nonce } .TICK .TICK emptyPayload)])
            | some p =>
              some ({ s2 with balance := -1 },
                step.2 ++ [LinkMsg.wireFrame s2.wire
                  (.entangled { nonce := s2.nonce } .TECK .TICK p)])
          else none -- assert_eq balance 0 failed
        | .TECK =>
          match s1.reader with
          | some _ =>
            some ({ s1 with inbound := some fp, balance := 1 },
              [LinkMsg.wireFrame s1.wire
                (.entangled { nonce := s1.nonce } .TACK .TECK emptyPayload)])
          | none =>
            if s1.balance = 0 then
              some (s1, [LinkMsg.wireFrame s1.wire
                (.entangled { nonce := s1.nonce } .RTECK .TECK emptyPayload)])
            else none -- assert_eq balance 0 failed
        | .TACK =>
          if s1.balance = -1 then
            match s1.writer with
            | some w =>
              some ({ s1 with writer := none, outbound := none, balance := 0 },
                [LinkMsg.linkToPortRead w,
                 LinkMsg.wireFrame s1.wire
                   (.entangled { nonce := s1.nonce } .TICK .TACK emptyPayload)])
            | none => some (s1, [])
          else none -- assert_eq balance (-1) failed
        | .RTECK =>
          some ({ s1 with balance := 0 },
            [LinkMsg.wireFrame s1.wire
              (.entangled { nonce := s1.nonce } .TICK .RTECK emptyPayload)])
  | .start cust =>
    some ({ s with state := .Init },
      [LinkMsg.wireFrame s.wire (.reset s.nonce),
       LinkMsg.portStatus cust .Init s.balance])
  | .poll cust =>
    if s.state = LinkState.Live then
      some ({ s with state := .Run },
        [LinkMsg.portStatus cust s.state s.balance])
    else
      some (s, [LinkMsg.portStatus cust s.state s.balance])
  | .stop cust =>
    some ({ s with state := .Stop },
      [LinkMsg.portStatus cust .Stop s.balance])
  | .read cust =>
    match s.reader with
    | none => some ({ s with reader := some cust }, [])
    | some _ => none -- only one Link-to-Port reader allowed
  | .write cust p =>
    match s.writer with
    | none => some ({ s with writer := some cust, outbound := some p }, [])
    | some _ => none -- only one Port-to-Link writer allowed

/-- Reachability of one Link state from another by completed events. -/
inductive Link.Reach : Link → Link → Prop where
  | refl (s : Link) : Link.Reach s s
  | step {s t t' : Link} {e : LinkEvent} {fresh : Nat} {ms : List LinkMsg} :
      Link.Reach s t → t.on_event e fresh = some (t', ms) → Link.Reach s t'

/-- A Link state is reachable when some sequence of completed events leads
to it from a freshly created Link. -/
def Link.Reachable (s : Link) : Prop :=
  ∃ w n, Link.Reach (Link.create w n) s

/-- The credit invariant of a Link: the balance is one of -1, 0, +1, a
staged outbound payload always has its writer installed, and a deficit
balance implies a writer is installed. -/
def LinkInv (s : Link) : Prop :=
  (s.balance = -1 ∨ s.balance = 0 ∨ s.balance = 1) ∧
  (s.outbound.isSome = true → s.writer.isSome = true) ∧
  (s.balance = -1 → s.writer.isSome = true)

/-! ### Port (port.rs) -/

/-- PortEvent from port.rs. -/
inductive PortEvent where
  | init (myself : Cap)
  | linkStatus (state : LinkState) (balance : Int)
  | linkToPortWrite (p : Payload)
  | linkToPortRead
  deriving DecidableEq, Repr

/-- A message emitted by the Port actor: an event re-enqueued to itself or
a LinkEvent sent to its Link. -/
inductive PortMsg where
  | toSelf (e : PortEvent)
  | toLink (dest : Cap) (e : LinkEvent)
  deriving DecidableEq, Repr

/-- The Port actor's state (struct Port in port.rs).  The host channels
`tx` (outbound to host) and `rx` (inbound from host) are modelled by their
queued contents, front of list first. -/
structure Port where
  myself : Option Cap
  link : Cap
  tx : List Payload
  rx : List Payload
  deriving DecidableEq, Repr

/-- Port::on_event from port.rs.  `none` models a panic (a second Init). -/
def Port.on_event (s : Port) (e : PortEvent) : Option (Port × List PortMsg) :=
  match e with
  | .init myCap =>
    match s.myself with
    | none => some ({ s with myself := some myCap }, [])
    | some _ => none -- Port::myself already set
  | .linkStatus _ _ => some (s, []) -- observational only
  | .linkToPortWrite p =>
    match s.myself with
    | none => some (s, []) -- self-capability not latched: event discarded
    | some my =>
      if s.tx.isEmpty then
        some ({ s with tx := s.tx ++ [p] },
          [PortMsg.toLink s.link (.read my)]) -- ack Write
      else
        some (s, [PortMsg.toSelf (.linkToPortWrite p)]) -- try again
  | .linkToPortRead =>
    match s.myself with
    | none => some (s, []) -- self-capability not latched: event discarded
    | some my =>
      match s.rx with
      | p :: rest =>
        some ({ s with rx := rest },
          [PortMsg.toLink s.link (.write my p)]) -- send next payload
      | [] => some (s, [PortMsg.toSelf .linkToPortRead]) -- try again

/-! ### Hub (hub.rs) -/

/-- Route from hub.rs: a pending destination, the Cell or a port index. -/
inductive Route where
  | cell
  | port (n : Nat)
  deriving DecidableEq, Repr

/-- CellIn from hub.rs: inbound-to-Cell reader slot. -/
structure CellIn where
  reader : Option Cap
  deriving DecidableEq, Repr

/-- CellOut from hub.rs: outbound-from-Cell writer, payload and routes. -/
structure CellOut where
  writer : Option Cap
  payload : Option Payload
  send_to : List Route
  deriving DecidableEq, Repr

/-- PortIn from hub.rs: inbound-from-port writer, payload and routes. -/
structure PortIn where
  writer : Option Cap
  payload : Option Payload
  send_to : List Route
  deriving DecidableEq, Repr

/-- PortOut from hub.rs: outbound-to-port reader slot. -/
structure PortOut where
  reader : Option Cap
  deriving DecidableEq, Repr

/-- HubEvent from hub.rs. -/
inductive HubEvent where
  | init (myself : Cap)
  | portStatus (cust : Cap) (state : LinkState) (balance : Int)
  | portToHubWrite (cust : Cap) (p : Payload)
  | portToHubRead (cust : Cap)
  | cellToHubWrite (cust : Cap) (p : Payload)
  | cellToHubRead (cust : Cap)
  deriving DecidableEq, Repr

/-- A message emitted by the Hub (or by Hub::create): its own Init, a
CellEvent to the Cell, or a PortEvent to a Port. -/
inductive HubMsg where
  | selfInit (dest : Cap) (hub : Cap)
  | hubToCellWrite (dest : Cap) (p : Payload)
  | hubToCellRead (dest : Cap)
  | hubToPortWrite (dest : Cap) (hub : Cap) (p : Payload)
  | hubToPortRead (dest : Cap) (hub : Cap)
  deriving DecidableEq, Repr

/-- The Hub actor's state (struct Hub in hub.rs). -/
structure Hub where
  myself : Option Cap
  ports : List Cap
  cell_in : CellIn
  cell_out : CellOut
  port_in : List PortIn
  port_out : List PortOut
  deriving DecidableEq, Repr

/-- Hub::port_to_port_num from hub.rs: index of the first matching port
capability; `none` models the `expect` panic on an unknown port. -/
def Hub.portNum (h : Hub) (cap : Cap) : Option Nat :=
  h.ports.findIdx? (fun c => c = cap)

/-- Hub::send_to_routes from hub.rs: walk the route list in order; a route
whose receiver slot is present is delivered (message sent, receiver slot
cleared, route removed), a route whose receiver is absent is kept.  `none`
models the index-out-of-bounds panic on a port route with no such slot. -/
def Hub.sendToRoutes (hub : Cap) (p : Payload) :
    List Route → CellIn → List PortOut →
    Option (List Route × CellIn × List PortOut × List HubMsg)
  | [], ci, po => some ([], ci, po, [])
  | Route.cell :: rest, ci, po =>
    match ci.reader with
    | some cell =>
      match Hub.sendToRoutes hub p rest { reader := none } po with
      | none => none
      | some (rs, ci', po', ms) =>
        some (rs, ci', po', HubMsg.hubToCellWrite cell p :: ms)
    | none =>
      match Hub.sendToRoutes hub p rest ci po with
      | none => none
      | some (rs, ci', po', ms) => some (Route.cell :: rs, ci', po', ms)
  | Route.port t :: rest, ci, po =>
    match po[t]? with
    | none => none -- port_out index out of bounds
    | some z =>
      match z.reader with
      | some port =>
        match Hub.sendToRoutes hub p rest ci (po.set t { reader := none }) with
        | none => none
        | some (rs, ci', po', ms) =>
          some (rs, ci', po', HubMsg.hubToPortWrite port hub p :: ms)
      | none =>
        match Hub.sendToRoutes hub p rest ci po with
        | none => none
        | some (rs, ci', po', ms) => some (Route.port t :: rs, ci', po', ms)

/-- The Cell half of Hub::try_everyone: if the Cell has a staged writer and
payload, either walk its routes (when some remain) or acknowledge the
writer (when none remain). -/
def Hub.cellPhase (myself : Cap) (co : CellOut) (ci : CellIn)
    (po : List PortOut) :
    Option (CellOut × CellIn × List PortOut × List HubMsg) :=
  match co.writer, co.payload with
  | some cell, some p =>
    if co.send_to.isEmpty then
      some ({ co with writer := none, payload := none }, ci, po,
        [HubMsg.hubToCellRead cell]) -- no more routes: ack writer
    else
      match Hub.sendToRoutes myself p co.send_to ci po with
      | none => none
      | some (rs, ci', po', ms) => some ({ co with send_to := rs }, ci', po', ms)
  | _, _ => some (co, ci, po, [])

/-- The per-port loop of Hub::try_everyone, iterating over the port
indices in `idxs` (the source walks 0 .. ports.len()-1).  `none` models
the port_in index-out-of-bounds panic. -/
def Hub.tryPortsIdx (myself : Cap) :
    List Nat → List PortIn → CellIn → List PortOut →
    Option (List PortIn × CellIn × List PortOut × List HubMsg)
  | [], pins, ci, po => some (pins, ci, po, [])
  | i :: rest, pins, ci, po =>
    match pins[i]? with
    | none => none -- port_in index out of bounds
    | some pi =>
      match pi.writer, pi.payload with
      | some port, some p =>
        if pi.send_to.isEmpty then
          -- no more routes: ack writer
          match Hub.tryPortsIdx myself rest
              (pins.set i { pi with writer := none, payload := none }) ci po with
          | none => none
          | some (pins', ci', po', ms) =>
            some (pins', ci', po', HubMsg.hubToPortRead port myself :: ms)
        else
          match Hub.sendToRoutes myself p pi.send_to ci po with
          | none => none
          | some (rs, ci1, po1, ms1) =>
            match Hub.tryPortsIdx myself rest
                (pins.set i { pi with send_to := rs }) ci1 po1 with
            | none => none
            | some (pins', ci', po', ms2) => some (pins', ci', po', ms1 ++ ms2)
      | _, _ =>
        match Hub.tryPortsIdx myself rest pins ci po with
        | none => none
        | some (pins', ci', po', ms) => some (pins', ci', po', ms)

/-- Hub::try_everyone from hub.rs: when the self-capability is latched, try
sending from the Cell, then from each port in index order. -/
def Hub.try_everyone (h : Hub) : Option (Hub × List HubMsg) :=
  match h.myself with
  | none => some (h, [])
  | some myself =>
    match Hub.cellPhase myself h.cell_out h.cell_in h.port_out with
    | none => none
    | some (co, ci, po, ms1) =>
      match Hub.tryPortsIdx myself (List.range h.ports.length) h.port_in ci po with
      | none => none
      | some (pins, ci', po', ms2) =>
        some ({ h with cell_out := co, cell_in := ci', port_out := po',
                       port_in := pins }, ms1 ++ ms2)

/-- Hub::on_event from hub.rs.  `none` models a panic: a second Init, an
unknown port capability, a second writer or reader on an occupied slot, or
the find_routes assert on leftover routes. -/
def Hub.on_event (h : Hub) (e : HubEvent) : Option (Hub × List HubMsg) :=
  match e with
  | .init myCap =>
    match h.myself with
    | none => some ({ h with myself := some myCap }, [])
    | some _ => none -- Hub::myself already set
  | .portStatus cust _ _ =>
    match h.portNum cust with
    | some _ => some (h, []) -- logged only
    | none => none -- unknown Port
  | .portToHubWrite cust p =>
    match h.portNum cust with
    | none => none -- unknown Port
    | some n =>
      match h.port_in[n]? with
      | none => none -- port_in index out of bounds
      | some pi =>
        match pi.writer with
        | some _ => none -- only one Port-to-Hub writer allowed
        | none =>
          if pi.send_to.isEmpty then
            -- install writer and payload, find_routes(Port n): push Cell
            let pin : PortIn :=
              { writer := some cust, payload := some p, send_to := [Route.cell] }
            Hub.try_everyone { h with port_in := h.port_in.set n pin }
          else none -- find_routes assert: left-over routes
  | .portToHubRead cust =>
    match h.portNum cust with
    | none => none -- unknown Port
    | some n =>
      match h.port_out[n]? with
      | none => none -- port_out index out of bounds
      | some z =>
        match z.reader with
        | some _ => none -- only one Port-to-Hub reader allowed
        | none =>
          let pout : PortOut := { reader := some cust }
          Hub.try_everyone { h with port_out := h.port_out.set n pout }
  | .cellToHubWrite cust p =>
    match h.cell_out.writer with
    | some _ => none -- only one Cell-to-Hub writer allowed
    | none =>
      if h.cell_out.send_to.isEmpty then
        -- install writer and payload, find_routes(Cell): push Port(0)
        Hub.try_everyone { h with cell_out :=
          { writer := some cust, payload := some p, send_to := [Route.port 0] } }
      else none -- find_routes assert: left-over routes
  | .cellToHubRead cust =>
    match h.cell_in.reader with
    | some _ => none -- only one Cell-to-Hub reader allowed
    | none =>
      Hub.try_everyone { h with cell_in := { reader := some cust } }

/-- The Hub state constructed by Hub::create (hub.rs) for a given port
set: every slot empty except each PortOut reader, which is primed with its
port's capability. -/
def Hub.initial (port_set : List Cap) : Hub :=
  { myself := none
    ports := port_set
    cell_in := { reader := none }
    cell_out := { writer := none, payload := none, send_to := [] }
    port_in := port_set.map (fun _ =>
      { writer := none, payload := none, send_to := [] })
    port_out := port_set.map (fun port => { reader := some port }) }

/-- The messages Hub::create sends, in order: Init to the new hub itself,
then HubToPortRead to each port.  (The Pollster and its timer thread are
external collaborators and are not modelled.) -/
def Hub.createMsgs (hub : Cap) (port_set : List Cap) : List HubMsg :=
  HubMsg.selfInit hub hub ::
    port_set.map (fun port => HubMsg.hubToPortRead port hub)

/-- Run a list of Hub events in order, collecting the messages sent. -/
def Hub.runEvents (h : Hub) : List HubEvent → Option (Hub × List HubMsg)
  | [] => some (h, [])
  | e :: rest =>
    match h.on_event e with
    | none => none
    | some (h', ms) =>
      match h'.runEvents rest with
      | none => none
      | some (h'', ms') => some (h'', ms ++ ms')

/-- Reachability of one Hub state from another by completed events. -/
inductive Hub.Reach : Hub → Hub → Prop where
  | refl (h : Hub) : Hub.Reach h h
  | step {h t t' : Hub} {e : HubEvent} {ms : List HubMsg} :
      Hub.Reach h t → t.on_event e = some (t', ms) → Hub.Reach h t'

/-- The pending routes of a Hub: the Cell direction's routes followed by
each port direction's routes. -/
def Hub.pendingRoutes (h : Hub) : List Route :=
  h.cell_out.send_to ++ (h.port_in.map PortIn.send_to).flatten

/-- Whether a route's receiver slot is currently present. -/
def Hub.routeReady (h : Hub) : Route → Bool
  | .cell => h.cell_in.reader.isSome
  | .port n =>
    match h.port_out[n]? with
    | some z => z.reader.isSome
    | none => false

/-- Whether a route's receiver slot exists but is currently absent. -/
def Hub.routeStalled (ci : CellIn) (po : List PortOut) : Route → Bool
  | .cell => ci.reader.isNone
  | .port n =>
    match po[n]? with
    | some z => z.reader.isNone
    | none => false

/-- Whether every staged writer (Cell or port) still has routes pending. -/
def Hub.writersHaveRoutes (h : Hub) : Bool :=
  (!(h.cell_out.writer.isSome && h.cell_out.payload.isSome)
      || !h.cell_out.send_to.isEmpty)
    && h.port_in.all (fun pi =>
      !(pi.writer.isSome && pi.payload.isSome) || !pi.send_to.isEmpty)

/-! ### Concrete fixtures used by witnesses and counterexamples -/

/-- A sample payload. -/
def payA : Payload := { id := { nonce := 7 }, data := [10] }

/-- A second sample payload. -/
def payB : Payload := { id := { nonce := 7 }, data := [20] }

/-- A started Link (state Init) with nonce 5 on wire 0. -/
def linkA : Link := { Link.create 0 5 with state := .Init }

/-- An entangled Link with a reader installed. -/
def linkR : Link := { linkA with state := .Run, reader := some 3 }

/-- An entangled Link with a writer and outbound staged and a deficit. -/
def linkW : Link :=
  { linkA with state := .Run, writer := some 3, outbound := some payA,
               balance := -1 }

/-- A Port with its self-capability latched. -/
def portA : Port := { myself := some 6, link := 2, tx := [], rx := [] }

/-- A Port that has not yet processed its Init event. -/
def portU : Port := { myself := none, link := 2, tx := [], rx := [] }

/-- An idle PortIn slot. -/
def pinIdle : PortIn := { writer := none, payload := none, send_to := [] }

/-- The Hub state reached from Hub.initial with ports 1, 2, 3 after the
events Init(9); CellToHubWrite(4, payA); CellToHubRead(4);
CellToHubWrite(4, payB): the Cell has payB staged with remaining routes
exactly Port(0), and port 0's reader slot is absent. -/
def hubC1 : Hub :=
  { myself := some 9
    ports := [1, 2, 3]
    cell_in := { reader := some 4 }
    cell_out := { writer := some 4, payload := some payB,
                  send_to := [Route.port 0] }
    port_in := [pinIdle, pinIdle, pinIdle]
    port_out := [{ reader := none }, { reader := some 2 },
                 { reader := some 3 }] }

/-- hubC1 after it processes PortToHubRead(port 0): the Port(0) route was
delivered and removed, but the Cell writer is still staged. -/
def hubC1' : Hub :=
  { hubC1 with
    cell_out := { writer := some 4, payload := some payB, send_to := [] } }

/-- hubC1' after one more try_everyone pass: the Cell writer is acked. -/
def hubC1'' : Hub :=
  { hubC1 with cell_out := { writer := none, payload := none, send_to := [] } }

/-- The Hub state reached from Hub.initial with ports 1, 2, 3 after the
events Init(9); CellToHubWrite(4, payA): the payload was delivered to
port 0 at once, leaving the Cell writer staged with an empty route list
and no pending route anywhere. -/
def hubC7 : Hub :=
  { myself := some 9
    ports := [1, 2, 3]
    cell_in := { reader := none }
    cell_out := { writer := some 4, payload := some payA, send_to := [] }
    port_in := [pinIdle, pinIdle, pinIdle]
    port_out := [{ reader := none }, { reader := some 2 },
                 { reader := some 3 }] }

/-- hubC7 after one try_everyone pass: the Cell writer was acked. -/
def hubC7' : Hub :=
  { hubC7 with cell_out := { writer := none, payload := none, send_to := [] } }

/-- A Hub with a staged Cell payload whose only route, Port(0), is
stalled: every receiver slot is absent. -/
def hubC7w : Hub :=
  { myself := some 9
    ports := [1, 2, 3]
    cell_in := { reader := none }
    cell_out := { writer := some 4, payload := some payA,
                  send_to := [Route.port 0] }
    port_in := [pinIdle, pinIdle, pinIdle]
    port_out := [{ reader := none }, { reader := none }, { reader := none }] }

/-- A Hub with a staged port-0 writer whose route list is already
drained, ready to be acknowledged by the next try_everyone pass. -/
def hubP : Hub :=
  { myself := some 9
    ports := [1, 2, 3]
    cell_in := { reader := none }
    cell_out := { writer := none, payload := none, send_to := [] }
    port_in := [{ writer := some 1, payload := some payA, send_to := [] },
                pinIdle, pinIdle]
    port_out := [{ reader := none }, { reader := none }, { reader := none }] }

/-- hubP after one try_everyone pass: the port-0 writer was acked and its
slot cleared. -/
def hubP' : Hub := { hubP with port_in := [pinIdle, pinIdle, pinIdle] }

/-! ## Helper lemmas -/

/-- Setting a list index to the element already there changes nothing. -/
theorem list_set_same {α : Type} (l : List α) (i : Nat) (a : α)
    (h : l[i]? = some a) : l.set i a = l := by
  induction l generalizing i with
  | nil => simp at h
  | cons x xs ih =>
    cases i with
    | zero => simp_all
    | succ n => simp_all [List.set]

/-- An element found by index lookup is a member of the list. -/
theorem mem_of_lookup {α : Type} {l : List α} {i : Nat} {a : α}
    (h : l[i]? = some a) : a ∈ l := by
  obtain ⟨hlt, rfl⟩ := List.getElem?_eq_some.mp h
  exact List.getElem_mem hlt

/-- Hub reachability is transitive. -/
theorem Hub.Reach.trans {a b c : Hub} (h1 : Hub.Reach a b)
    (h2 : Hub.Reach b c) : Hub.Reach a c := by
  induction h2 with
  | refl => exact h1
  | step _ hstep ih => exact Hub.Reach.step ih hstep

/-- A completed run of Hub events witnesses reachability. -/
theorem Hub.runEvents_reach {h h' : Hub} {evs : List HubEvent}
    {ms : List HubMsg} (hr : h.runEvents evs = some (h', ms)) :
    Hub.Reach h h' := by
  induction evs generalizing h ms with
  | nil =>
    simp only [Hub.runEvents, Option.some.injEq, Prod.mk.injEq] at hr
    exact hr.1 ▸ Hub.Reach.refl h
  | cons e rest ih =>
    simp only [Hub.runEvents] at hr
    cases he : h.on_event e with
    | none => simp [he] at hr
    | some r =>
      obtain ⟨r1, r2⟩ := r
      rw [he] at hr
      dsimp only at hr
      cases hrest : r1.runEvents rest with
      | none => simp [hrest] at hr
      | some r' =>
        obtain ⟨r1', r2'⟩ := r'
        rw [hrest] at hr
        simp only [Option.some.injEq, Prod.mk.injEq] at hr
        obtain ⟨h1, -⟩ := hr
        subst h1
        exact Hub.Reach.trans
          (Hub.Reach.step (Hub.Reach.refl h) he) (ih hrest)

/-- send_to_routes leaves everything unchanged and sends nothing when
every listed route's receiver slot exists but is absent. -/
theorem Hub.sendToRoutes_stalled (hub : Cap) (p : Payload)
    (routes : List Route) (ci : CellIn) (po : List PortOut)
    (hst : ∀ r ∈ routes, Hub.routeStalled ci po r = true) :
    Hub.sendToRoutes hub p routes ci po = some (routes, ci, po, []) := by
  induction routes with
  | nil => rfl
  | cons r rest ih =>
    have hr := hst r (List.mem_cons_self r rest)
    have hrest := fun x hx => hst x (List.mem_cons_of_mem r hx)
    cases r with
    | cell =>
      have hn : ci.reader = none := by
        simpa [Hub.routeStalled, Option.isNone_iff_eq_none] using hr
      simp [Hub.sendToRoutes, hn, ih hrest]
    | port t =>
      simp only [Hub.routeStalled] at hr
      cases hpo : po[t]? with
      | none => rw [hpo] at hr; simp at hr
      | some z =>
        rw [hpo] at hr
        have hz : z.reader = none := by
          simpa [Option.isNone_iff_eq_none] using hr
        simp [Hub.sendToRoutes, hpo, hz, ih hrest]

/-- Every message sent by send_to_routes is a HubToCellWrite or a
HubToPortWrite of the routed payload. -/
theorem Hub.sendToRoutes_msgs (hub : Cap) (p : Payload)
    (routes : List Route) (ci : CellIn) (po : List PortOut)
    (rs : List Route) (ci' : CellIn) (po' : List PortOut) (ms : List HubMsg)
    (h : Hub.sendToRoutes hub p routes ci po = some (rs, ci', po', ms)) :
    ∀ m ∈ ms, (∃ c, m = HubMsg.hubToCellWrite c p) ∨
      (∃ pt, m = HubMsg.hubToPortWrite pt hub p) := by
  induction routes generalizing ci po rs ci' po' ms with
  | nil =>
    simp only [Hub.sendToRoutes, Option.some.injEq, Prod.mk.injEq] at h
    obtain ⟨-, -, -, h4⟩ := h
    simp [← h4]
  | cons r rest ih =>
    cases r with
    | cell =>
      cases hn : ci.reader with
      | some cell =>
        simp only [Hub.sendToRoutes, hn] at h
        cases hrec : Hub.sendToRoutes hub p rest { reader := none } po with
        | none => rw [hrec] at h; simp at h
        | some q =>
          obtain ⟨qr, qc, qp, qm⟩ := q
          rw [hrec] at h
          simp only [Option.some.injEq, Prod.mk.injEq] at h
          obtain ⟨-, -, -, h4⟩ := h
          intro m hm
          rw [← h4] at hm
          rcases List.mem_cons.mp hm with rfl | hm'
          · exact Or.inl ⟨cell, rfl⟩
          · exact ih _ _ _ _ _ _ hrec m hm'
      | none =>
        simp only [Hub.sendToRoutes, hn] at h
        cases hrec : Hub.sendToRoutes hub p rest ci po with
        | none => rw [hrec] at h; simp at h
        | some q =>
          obtain ⟨qr, qc, qp, qm⟩ := q
          rw [hrec] at h
          simp only [Option.some.injEq, Prod.mk.injEq] at h
          obtain ⟨-, -, -, h4⟩ := h
          intro m hm
          rw [← h4] at hm
          exact ih _ _ _ _ _ _ hrec m hm
    | port t =>
      cases hpo : po[t]? with
      | none => simp [Hub.sendToRoutes, hpo] at h
      | some z =>
        cases hz : z.reader with
        | some port =>
          simp only [Hub.sendToRoutes, hpo, hz] at h
          cases hrec : Hub.sendToRoutes hub p rest ci
              (po.set t { reader := none }) with
          | none => rw [hrec] at h; simp at h
          | some q =>
            obtain ⟨qr, qc, qp, qm⟩ := q
            rw [hrec] at h
            simp only [Option.some.injEq, Prod.mk.injEq] at h
            obtain ⟨-, -, -, h4⟩ := h
            intro m hm
            rw [← h4] at hm
            rcases List.mem_cons.mp hm with rfl | hm'
            · exact Or.inr ⟨port, rfl⟩
            · exact ih _ _ _ _ _ _ hrec m hm'
        | none =>
          simp only [Hub.sendToRoutes, hpo, hz] at h
          cases hrec : Hub.sendToRoutes hub p rest ci po with
          | none => rw [hrec] at h; simp at h
          | some q =>
            obtain ⟨qr, qc, qp, qm⟩ := q
            rw [hrec] at h
            simp only [Option.some.injEq, Prod.mk.injEq] at h
            obtain ⟨-, -, -, h4⟩ := h
            intro m hm
            rw [← h4] at hm
            exact ih _ _ _ _ _ _ hrec m hm

/-- The port loop of try_everyone never sends a HubToCellRead. -/
theorem Hub.tryPortsIdx_no_cellRead (myself : Cap) (idxs : List Nat)
    (pins : List PortIn) (ci : CellIn) (po : List PortOut)
    (pins' : List PortIn) (ci' : CellIn) (po' : List PortOut)
    (ms : List HubMsg)
    (h : Hub.tryPortsIdx myself idxs pins ci po = some (pins', ci', po', ms)) :
    ∀ c, HubMsg.hubToCellRead c ∉ ms := by
  induction idxs generalizing pins ci po pins' ci' po' ms with
  | nil =>
    simp only [Hub.tryPortsIdx, Option.some.injEq, Prod.mk.injEq] at h
    obtain ⟨-, -, -, h4⟩ := h
    simp [← h4]
  | cons i rest ih =>
    simp only [Hub.tryPortsIdx] at h
    cases hpi : pins[i]? with
    | none => rw [hpi] at h; simp at h
    | some pi =>
      rw [hpi] at h
      dsimp only at h
      cases hw : pi.writer with
      | some port =>
        cases hp : pi.payload with
        | some p =>
          rw [hw, hp] at h
          dsimp only at h
          cases he : pi.send_to.isEmpty with
          | true =>
            rw [he] at h
            simp only [if_true] at h
            cases hrec : Hub.tryPortsIdx myself rest
                (pins.set i { pi with writer := none, payload := none })
                ci po with
            | none => rw [hrec] at h; simp at h
            | some q =>
              obtain ⟨q1, q2, q3, q4⟩ := q
              rw [hrec] at h
              simp only [Option.some.injEq, Prod.mk.injEq] at h
              obtain ⟨-, -, -, h4⟩ := h
              intro c hc
              rw [← h4] at hc
              rcases List.mem_cons.mp hc with hd | htl
              · exact HubMsg.noConfusion hd
              · exact ih _ _ _ _ _ _ _ hrec c htl
          | false =>
            rw [he] at h
            simp only [Bool.false_eq_true, if_false] at h
            cases hsr : Hub.sendToRoutes myself p pi.send_to ci po with
            | none => rw [hsr] at h; simp at h
            | some q =>
              obtain ⟨rs, ci1, po1, ms1⟩ := q
              rw [hsr] at h
              dsimp only at h
              cases hrec : Hub.tryPortsIdx myself rest
                  (pins.set i
                    { writer := some port, payload := some p, send_to := rs })
                  ci1 po1 with
              | none => rw [hrec] at h; simp at h
              | some q' =>
                obtain ⟨q1, q2, q3, q4⟩ := q'
                rw [hrec] at h
                simp only [Option.some.injEq, Prod.mk.injEq] at h
                obtain ⟨-, -, -, h4⟩ := h
                intro c hc
                rw [← h4] at hc
                rcases List.mem_append.mp hc with h1 | h2
                · rcases Hub.sendToRoutes_msgs _ _ _ _ _ _ _ _ _ hsr _ h1 with
                    ⟨c', hc'⟩ | ⟨pt, hpt⟩
                  · exact HubMsg.noConfusion hc'
                  · exact HubMsg.noConfusion hpt
                · exact ih _ _ _ _ _ _ _ hrec c h2
        | none =>
          rw [hw, hp] at h
          dsimp only at h
          cases hrec : Hub.tryPortsIdx myself rest pins ci po with
          | none => rw [hrec] at h; simp at h
          | some q =>
            obtain ⟨q1, q2, q3, q4⟩ := q
            rw [hrec] at h
            simp only [Option.some.injEq, Prod.mk.injEq] at h
            obtain ⟨-, -, -, h4⟩ := h
            intro c hc
            rw [← h4] at hc
            exact ih _ _ _ _ _ _ _ hrec c hc
      | none =>
        rw [hw] at h
        dsimp only at h
        cases hrec : Hub.tryPortsIdx myself rest pins ci po with
        | none => rw [hrec] at h; simp at h
        | some q =>
          obtain ⟨q1, q2, q3, q4⟩ := q
          rw [hrec] at h
          simp only [Option.some.injEq, Prod.mk.injEq] at h
          obtain ⟨-, -, -, h4⟩ := h
          intro c hc
          rw [← h4] at hc
          exact ih _ _ _ _ _ _ _ hrec c hc

/-- The port loop of try_everyone leaves the port_in entry at any index
it does not visit unchanged. -/
theorem Hub.tryPortsIdx_preserves (myself : Cap) (idxs : List Nat)
    (pins : List PortIn) (ci : CellIn) (po : List PortOut)
    (pins' : List PortIn) (ci' : CellIn) (po' : List PortOut)
    (ms : List HubMsg)
    (h : Hub.tryPortsIdx myself idxs pins ci po = some (pins', ci', po', ms))
    (j : Nat) (hj : j ∉ idxs) : pins'[j]? = pins[j]? := by
  induction idxs generalizing pins ci po pins' ci' po' ms with
  | nil =>
    simp only [Hub.tryPortsIdx, Option.some.injEq, Prod.mk.injEq] at h
    rw [← h.1]
  | cons i rest ih =>
    have hji : j ≠ i := fun hq => hj (hq ▸ List.mem_cons_self i rest)
    have hjr : j ∉ rest := fun hq => hj (List.mem_cons_of_mem i hq)
    simp only [Hub.tryPortsIdx] at h
    cases hpi : pins[i]? with
    | none => rw [hpi] at h; simp at h
    | some pi =>
      rw [hpi] at h
      dsimp only at h
      cases hw : pi.writer with
      | some port =>
        cases hp : pi.payload with
        | some p =>
          rw [hw, hp] at h
          dsimp only at h
          cases he : pi.send_to.isEmpty with
          | true =>
            rw [he] at h
            simp only [if_true] at h
            cases hrec : Hub.tryPortsIdx myself rest
                (pins.set i { pi with writer := none, payload := none })
                ci po with
            | none => rw [hrec] at h; simp at h
            | some q =>
              obtain ⟨q1, q2, q3, q4⟩ := q
              rw [hrec] at h
              simp only [Option.some.injEq, Prod.mk.injEq] at h
              obtain ⟨rfl, -⟩ := h
              rw [ih _ _ _ _ _ _ _ hrec hjr,
                List.getElem?_set_ne (fun hq => hji hq.symm)]
          | false =>
            rw [he] at h
            simp only [Bool.false_eq_true, if_false] at h
            cases hsr : Hub.sendToRoutes myself p pi.send_to ci po with
            | none => rw [hsr] at h; simp at h
            | some q =>
              obtain ⟨rs, ci1, po1, ms1⟩ := q
              rw [hsr] at h
              dsimp only at h
              cases hrec : Hub.tryPortsIdx myself rest
                  (pins.set i
                    { writer := some port, payload := some p, send_to := rs })
                  ci1 po1 with
              | none => rw [hrec] at h; simp at h
              | some q' =>
                obtain ⟨q1, q2, q3, q4⟩ := q'
                rw [hrec] at h
                simp only [Option.some.injEq, Prod.mk.injEq] at h
                obtain ⟨rfl, -⟩ := h
                rw [ih _ _ _ _ _ _ _ hrec hjr,
                  List.getElem?_set_ne (fun hq => hji hq.symm)]
        | none =>
          rw [hw, hp] at h
          dsimp only at h
          cases hrec : Hub.tryPortsIdx myself rest pins ci po with
          | none => rw [hrec] at h; simp at h
          | some q =>
            obtain ⟨q1, q2, q3, q4⟩ := q
            rw [hrec] at h
            simp only [Option.some.injEq, Prod.mk.injEq] at h
            obtain ⟨rfl, -⟩ := h
            exact ih _ _ _ _ _ _ _ hrec hjr
      | none =>
        rw [hw] at h
        dsimp only at h
        cases hrec : Hub.tryPortsIdx myself rest pins ci po with
        | none => rw [hrec] at h; simp at h
        | some q =>
          obtain ⟨q1, q2, q3, q4⟩ := q
          rw [hrec] at h
          simp only [Option.some.injEq, Prod.mk.injEq] at h
          obtain ⟨rfl, -⟩ := h
          exact ih _ _ _ _ _ _ _ hrec hjr

/-- When the port loop of try_everyone (over distinct indices) sends a
HubToPortRead acknowledgement, the acknowledged port was a staged writer
with a payload whose route list was already empty, and the loop leaves
that entry with its writer and payload cleared. -/
theorem Hub.tryPortsIdx_portRead_origin (myself : Cap) (idxs : List Nat)
    (pins : List PortIn) (ci : CellIn) (po : List PortOut)
    (pins' : List PortIn) (ci' : CellIn) (po' : List PortOut)
    (ms : List HubMsg) (hnd : idxs.Nodup)
    (h : Hub.tryPortsIdx myself idxs pins ci po = some (pins', ci', po', ms)) :
    ∀ pt my, HubMsg.hubToPortRead pt my ∈ ms →
      my = myself ∧ ∃ i ∈ idxs, ∃ pi, pins[i]? = some pi ∧
        pi.writer = some pt ∧ pi.payload.isSome = true ∧
        pi.send_to = [] ∧
        ∃ pc, pins'[i]? = some pc ∧ pc.writer = none ∧
          pc.payload = none := by
  induction idxs generalizing pins ci po pins' ci' po' ms with
  | nil =>
    simp only [Hub.tryPortsIdx, Option.some.injEq, Prod.mk.injEq] at h
    obtain ⟨-, -, -, h4⟩ := h
    simp [← h4]
  | cons i rest ih =>
    obtain ⟨hni, hndr⟩ := List.nodup_cons.mp hnd
    simp only [Hub.tryPortsIdx] at h
    cases hpi : pins[i]? with
    | none => rw [hpi] at h; simp at h
    | some pi =>
      rw [hpi] at h
      dsimp only at h
      cases hw : pi.writer with
      | some port =>
        cases hp : pi.payload with
        | some p =>
          rw [hw, hp] at h
          dsimp only at h
          cases he : pi.send_to.isEmpty with
          | true =>
            rw [he] at h
            simp only [if_true] at h
            cases hrec : Hub.tryPortsIdx myself rest
                (pins.set i { pi with writer := none, payload := none })
                ci po with
            | none => rw [hrec] at h; simp at h
            | some q =>
              obtain ⟨q1, q2, q3, q4⟩ := q
              rw [hrec] at h
              simp only [Option.some.injEq, Prod.mk.injEq] at h
              obtain ⟨rfl, -, -, h4⟩ := h
              intro pt my hm
              rw [← h4] at hm
              rcases List.mem_cons.mp hm with hd | htl
              · obtain ⟨h5, h6⟩ := HubMsg.hubToPortRead.inj hd.symm
                have hilt : i < pins.length :=
                  (List.getElem?_eq_some.mp hpi).1
                have hkeep : q1[i]? =
                    some { pi with writer := none, payload := none } := by
                  rw [Hub.tryPortsIdx_preserves myself rest _ _ _ _ _ _ _
                      hrec i hni,
                    List.getElem?_set_eq_of_lt _ hilt]
                refine ⟨h6.symm, i, List.mem_cons_self i rest, pi, hpi,
                  h5 ▸ hw, by simp [hp], List.isEmpty_iff.mp he,
                  { pi with writer := none, payload := none }, hkeep,
                  rfl, rfl⟩
              · obtain ⟨h5, j, hj, pj, hpj, h6, h7, h8, pc, hpc, h9, h10⟩ :=
                  ih _ _ _ _ _ _ _ hndr hrec pt my htl
                have hji : j ≠ i := fun hq => hni (hq ▸ hj)
                rw [List.getElem?_set_ne (fun hq => hji hq.symm)] at hpj
                exact ⟨h5, j, List.mem_cons_of_mem i hj, pj, hpj, h6, h7,
                  h8, pc, hpc, h9, h10⟩
          | false =>
            rw [he] at h
            simp only [Bool.false_eq_true, if_false] at h
            cases hsr : Hub.sendToRoutes myself p pi.send_to ci po with
            | none => rw [hsr] at h; simp at h
            | some q =>
              obtain ⟨rs, ci1, po1, ms1⟩ := q
              rw [hsr] at h
              dsimp only at h
              cases hrec : Hub.tryPortsIdx myself rest
                  (pins.set i
                    { writer := some port, payload := some p, send_to := rs })
                  ci1 po1 with
              | none => rw [hrec] at h; simp at h
              | some q' =>
                obtain ⟨q1, q2, q3, q4⟩ := q'
                rw [hrec] at h
                simp only [Option.some.injEq, Prod.mk.injEq] at h
                obtain ⟨rfl, -, -, h4⟩ := h
                intro pt my hm
                rw [← h4] at hm
                rcases List.mem_append.mp hm with h1 | h2
                · rcases Hub.sendToRoutes_msgs _ _ _ _ _ _ _ _ _ hsr _ h1 with
                    ⟨c', hc'⟩ | ⟨pt', hpt'⟩
                  · exact HubMsg.noConfusion hc'
                  · exact HubMsg.noConfusion hpt'
                · obtain ⟨h5, j, hj, pj, hpj, h6, h7, h8, pc, hpc, h9, h10⟩ :=
                    ih _ _ _ _ _ _ _ hndr hrec pt my h2
                  have hji : j ≠ i := fun hq => hni (hq ▸ hj)
                  rw [List.getElem?_set_ne (fun hq => hji hq.symm)] at hpj
                  exact ⟨h5, j, List.mem_cons_of_mem i hj, pj, hpj, h6, h7,
                    h8, pc, hpc, h9, h10⟩
        | none =>
          rw [hw, hp] at h
          dsimp only at h
          cases hrec : Hub.tryPortsIdx myself rest pins ci po with
          | none => rw [hrec] at h; simp at h
          | some q =>
            obtain ⟨q1, q2, q3, q4⟩ := q
            rw [hrec] at h
            simp only [Option.some.injEq, Prod.mk.injEq] at h
            obtain ⟨rfl, -, -, h4⟩ := h
            intro pt my hm
            rw [← h4] at hm
            obtain ⟨h5, j, hj, pj, hpj, h6, h7, h8, pc, hpc, h9, h10⟩ :=
              ih _ _ _ _ _ _ _ hndr hrec pt my hm
            exact ⟨h5, j, List.mem_cons_of_mem i hj, pj, hpj, h6, h7, h8,
              pc, hpc, h9, h10⟩
      | none =>
        rw [hw] at h
        dsimp only at h
        cases hrec : Hub.tryPortsIdx myself rest pins ci po with
        | none => rw [hrec] at h; simp at h
        | some q =>
          obtain ⟨q1, q2, q3, q4⟩ := q
          rw [hrec] at h
          simp only [Option.some.injEq, Prod.mk.injEq] at h
          obtain ⟨rfl, -, -, h4⟩ := h
          intro pt my hm
          rw [← h4] at hm
          obtain ⟨h5, j, hj, pj, hpj, h6, h7, h8, pc, hpc, h9, h10⟩ :=
            ih _ _ _ _ _ _ _ hndr hrec pt my hm
          exact ⟨h5, j, List.mem_cons_of_mem i hj, pj, hpj, h6, h7, h8,
            pc, hpc, h9, h10⟩

/-- The port loop of try_everyone is a no-op when every staged port writer
still has routes pending and all of those routes are stalled. -/
theorem Hub.tryPortsIdx_idle (myself : Cap) (idxs : List Nat)
    (pins : List PortIn) (ci : CellIn) (po : List PortOut)
    (hyp : ∀ i ∈ idxs, ∃ pi, pins[i]? = some pi ∧
      (pi.writer.isSome = true → pi.payload.isSome = true →
        pi.send_to ≠ [] ∧ ∀ r ∈ pi.send_to, Hub.routeStalled ci po r = true)) :
    Hub.tryPortsIdx myself idxs pins ci po = some (pins, ci, po, []) := by
  induction idxs with
  | nil => rfl
  | cons i rest ih =>
    obtain ⟨pi, hpi, hcond⟩ := hyp i (List.mem_cons_self i rest)
    have ihr := ih (fun x hx => hyp x (List.mem_cons_of_mem i hx))
    simp only [Hub.tryPortsIdx, hpi]
    cases hw : pi.writer with
    | none => simp [ihr]
    | some port =>
      cases hp : pi.payload with
      | none => simp [ihr]
      | some p =>
        obtain ⟨hne, hst⟩ := hcond (by simp [hw]) (by simp [hp])
        have hie : pi.send_to.isEmpty = false := by
          simp [List.isEmpty_iff, hne]
        have hset : pins.set i (⟨some port, some p, pi.send_to⟩ : PortIn)
            = pins := by
          have hpieq : (⟨some port, some p, pi.send_to⟩ : PortIn) = pi := by
            rw [← hw, ← hp]
          rw [hpieq]
          exact list_set_same pins i pi hpi
        simp [hie, Hub.sendToRoutes_stalled myself p pi.send_to ci po hst,
          hset, ihr]

/-- The Cell phase of try_everyone sends a HubToCellRead only when the
Cell writer was staged with a payload and an empty route list, and then
clears the writer and payload; it never sends a HubToPortRead. -/
theorem Hub.cellPhase_msgs (myself : Cap) (co0 : CellOut) (ci0 : CellIn)
    (po0 : List PortOut) (co : CellOut) (ci : CellIn) (po : List PortOut)
    (ms : List HubMsg)
    (h : Hub.cellPhase myself co0 ci0 po0 = some (co, ci, po, ms)) :
    (∀ c, HubMsg.hubToCellRead c ∈ ms →
      co0.writer = some c ∧ co0.payload.isSome = true ∧
      co0.send_to = [] ∧ co.writer = none ∧ co.payload = none) ∧
    (∀ pt my, HubMsg.hubToPortRead pt my ∉ ms) := by
  simp only [Hub.cellPhase] at h
  cases hw : co0.writer with
  | none =>
    rw [hw] at h
    dsimp only at h
    simp only [Option.some.injEq, Prod.mk.injEq] at h
    obtain ⟨-, -, -, h4⟩ := h
    simp [← h4]
  | some cell =>
    cases hp : co0.payload with
    | none =>
      rw [hw, hp] at h
      dsimp only at h
      simp only [Option.some.injEq, Prod.mk.injEq] at h
      obtain ⟨-, -, -, h4⟩ := h
      simp [← h4]
    | some p =>
      rw [hw, hp] at h
      dsimp only at h
      cases he : co0.send_to.isEmpty with
      | true =>
        rw [he] at h
        simp only [if_true, Option.some.injEq, Prod.mk.injEq] at h
        obtain ⟨h1, -, -, h4⟩ := h
        constructor
        · intro c hc
          rw [← h4] at hc
          rcases List.mem_cons.mp hc with hd | htl
          · obtain h5 := HubMsg.hubToCellRead.inj hd.symm
            exact ⟨by rw [h5], by simp [hp], List.isEmpty_iff.mp he,
              by rw [← h1], by rw [← h1]⟩
          · exact absurd htl (List.not_mem_nil _)
        · intro pt my hm
          rw [← h4] at hm
          rcases List.mem_cons.mp hm with hd | htl
          · exact HubMsg.noConfusion hd
          · exact absurd htl (List.not_mem_nil _)
      | false =>
        rw [he] at h
        simp only [Bool.false_eq_true, if_false] at h
        cases hsr : Hub.sendToRoutes myself p co0.send_to ci0 po0 with
        | none => rw [hsr] at h; simp at h
        | some q =>
          obtain ⟨rs, ci1, po1, ms1⟩ := q
          rw [hsr] at h
          simp only [Option.some.injEq, Prod.mk.injEq] at h
          obtain ⟨-, -, -, h4⟩ := h
          constructor
          · intro c hc
            rw [← h4] at hc
            rcases Hub.sendToRoutes_msgs _ _ _ _ _ _ _ _ _ hsr _ hc with
              ⟨c', hc'⟩ | ⟨pt', hpt'⟩
            · exact absurd hc' (by simp)
            · exact absurd hpt' (by simp)
          · intro pt my hm
            rw [← h4] at hm
            rcases Hub.sendToRoutes_msgs _ _ _ _ _ _ _ _ _ hsr _ hm with
              ⟨c', hc'⟩ | ⟨pt', hpt'⟩
            · exact HubMsg.noConfusion hc'
            · exact HubMsg.noConfusion hpt'

/-- try_everyone acknowledges the Cell writer only from a staged state
whose route list is already empty, and clears the slot; a HubToPortRead
acknowledgement likewise only leaves from a staged port writer with a
payload and an exhausted route list. -/
theorem Hub.ack_discipline (h h' : Hub) (ms : List HubMsg)
    (ht : h.try_everyone = some (h', ms)) :
    (∀ c, HubMsg.hubToCellRead c ∈ ms →
      h.cell_out.writer = some c ∧ h.cell_out.payload.isSome = true ∧
      h.cell_out.send_to = [] ∧ h'.cell_out.writer = none ∧
      h'.cell_out.payload = none) ∧
    (∀ pt my, HubMsg.hubToPortRead pt my ∈ ms →
      ∃ i : Nat, ∃ pi : PortIn, h.port_in[i]? = some pi ∧
        pi.writer = some pt ∧ pi.payload.isSome = true ∧
        pi.send_to = [] ∧
        ∃ pc : PortIn, h'.port_in[i]? = some pc ∧
          pc.writer = none ∧ pc.payload = none) := by
  simp only [Hub.try_everyone] at ht
  cases hmy : h.myself with
  | none =>
    rw [hmy] at ht
    dsimp only at ht
    simp only [Option.some.injEq, Prod.mk.injEq] at ht
    obtain ⟨-, h2⟩ := ht
    simp [← h2]
  | some myself =>
    rw [hmy] at ht
    dsimp only at ht
    cases hcp : Hub.cellPhase myself h.cell_out h.cell_in h.port_out with
    | none => rw [hcp] at ht; simp at ht
    | some q =>
      obtain ⟨co, ci, po, ms1⟩ := q
      rw [hcp] at ht
      dsimp only at ht
      cases hti : Hub.tryPortsIdx myself (List.range h.ports.length)
          h.port_in ci po with
      | none => rw [hti] at ht; simp at ht
      | some q' =>
        obtain ⟨pins, ci', po', ms2⟩ := q'
        rw [hti] at ht
        simp only [Option.some.injEq, Prod.mk.injEq] at ht
        obtain ⟨hh', hms⟩ := ht
        constructor
        · intro c hc
          rw [← hms] at hc
          rcases List.mem_append.mp hc with h1 | h2
          · obtain ⟨hw, hp, hst, hcw, hcp'⟩ :=
              (Hub.cellPhase_msgs _ _ _ _ _ _ _ _ hcp).1 c h1
            refine ⟨hw, hp, hst, ?_, ?_⟩ <;> rw [← hh'] <;> simpa
          · exact absurd h2
              (Hub.tryPortsIdx_no_cellRead _ _ _ _ _ _ _ _ _ hti c)
        · intro pt my hm
          rw [← hms] at hm
          rcases List.mem_append.mp hm with h1 | h2
          · exact absurd h1 ((Hub.cellPhase_msgs _ _ _ _ _ _ _ _ hcp).2 pt my)
          · obtain ⟨-, j, hj, pj, hpj, h6, h7, h8, pc, hpc, h9, h10⟩ :=
              Hub.tryPortsIdx_portRead_origin _ _ _ _ _ _ _ _ _
                (List.nodup_range _) hti pt my h2
            refine ⟨j, pj, hpj, h6, h7, h8, pc, ?_, h9, h10⟩
            rw [← hh']
            exact hpc

/-- A freshly created Link satisfies the credit invariant. -/
theorem linkInv_create (w : Cap) (n : Nat) : LinkInv (Link.create w n) := by
  refine ⟨Or.inr (Or.inl rfl), ?_, ?_⟩ <;> simp [Link.create]

/-- Every completed event preserves the Link credit invariant. -/
theorem linkInv_step (s s' : Link) (e : LinkEvent) (fresh : Nat)
    (ms : List LinkMsg) (hinv : LinkInv s)
    (h : s.on_event e fresh = some (s', ms)) : LinkInv s' := by
  obtain ⟨h1, h2, h3⟩ := hinv
  cases e with
  | frame f =>
    by_cases hstop : s.state = LinkState.Stop
    · simp [Link.on_event, hstop] at h
      obtain ⟨rfl, -⟩ := h
      refine ⟨?_, ?_, ?_⟩ <;> first | tauto | simp_all
    · cases f with
      | reset peer =>
        rcases lt_trichotomy s.nonce peer with hcmp | hcmp | hcmp
        · simp [Link.on_event, hstop, hcmp] at h
          obtain ⟨rfl, -⟩ := h
          refine ⟨?_, ?_, ?_⟩ <;> first | tauto | simp_all
        · simp [Link.on_event, hstop, hcmp] at h
          obtain ⟨rfl, -⟩ := h
          refine ⟨?_, ?_, ?_⟩ <;> first | tauto | simp_all
        · have hnlt : ¬s.nonce < peer := not_lt.mpr hcmp.le
          simp [Link.on_event, hstop, hnlt, hcmp] at h
          obtain ⟨rfl, -⟩ := h
          refine ⟨?_, ?_, ?_⟩ <;> first | tauto | simp_all
      | entangled tid i u fp =>
        cases i with
        | TICK =>
          rcases h1 with hb | hb | hb
          · exfalso
            simp [Link.on_event, hstop, hb] at h
          · cases ho : s.outbound with
            | none =>
              simp [Link.on_event, hstop, hb, ho] at h
              obtain ⟨rfl, -⟩ := h
              refine ⟨?_, ?_, ?_⟩ <;> first | tauto | simp_all
            | some q =>
              simp [Link.on_event, hstop, hb, ho] at h
              obtain ⟨rfl, -⟩ := h
              refine ⟨?_, ?_, ?_⟩ <;> first | tauto | simp_all
          · cases hr : s.reader with
            | none =>
              exfalso
              simp [Link.on_event, hstop, hb, hr] at h
            | some r =>
              cases hi : s.inbound with
              | none =>
                exfalso
                simp [Link.on_event, hstop, hb, hr, hi] at h
              | some q =>
                cases ho : s.outbound with
                | none =>
                  simp [Link.on_event, hstop, hb, hr, hi, ho] at h
                  obtain ⟨rfl, -⟩ := h
                  refine ⟨?_, ?_, ?_⟩ <;> first | tauto | simp_all
                | some q2 =>
                  simp [Link.on_event, hstop, hb, hr, hi, ho] at h
                  obtain ⟨rfl, -⟩ := h
                  refine ⟨?_, ?_, ?_⟩ <;> first | tauto | simp_all
        | TECK =>
          cases hr : s.reader with
          | some r =>
            simp [Link.on_event, hstop, hr] at h
            obtain ⟨rfl, -⟩ := h
            refine ⟨?_, ?_, ?_⟩ <;> first | tauto | simp_all
          | none =>
            by_cases hbz : s.balance = 0
            · simp [Link.on_event, hstop, hr, hbz] at h
              obtain ⟨rfl, -⟩ := h
              refine ⟨?_, ?_, ?_⟩ <;> first | tauto | simp_all
            · exfalso
              simp [Link.on_event, hstop, hr, hbz] at h
        | TACK =>
          by_cases hbm : s.balance = -1
          · cases hw : s.writer with
            | some w =>
              simp [Link.on_event, hstop, hbm, hw] at h
              obtain ⟨rfl, -⟩ := h
              refine ⟨?_, ?_, ?_⟩ <;> first | tauto | simp_all
            | none =>
              exfalso
              have hws := h3 hbm
              simp [hw] at hws
          · exfalso
            simp [Link.on_event, hstop, hbm] at h
        | RTECK =>
          simp [Link.on_event, hstop] at h
          obtain ⟨rfl, -⟩ := h
          refine ⟨?_, ?_, ?_⟩ <;> first | tauto | simp_all
  | start cust =>
    simp [Link.on_event] at h
    obtain ⟨rfl, -⟩ := h
    refine ⟨?_, ?_, ?_⟩ <;> first | tauto | simp_all
  | poll cust =>
    by_cases hl : s.state = LinkState.Live
    · simp [Link.on_event, hl] at h
      obtain ⟨rfl, -⟩ := h
      refine ⟨?_, ?_, ?_⟩ <;> first | tauto | simp_all
    · simp [Link.on_event, hl] at h
      obtain ⟨rfl, -⟩ := h
      refine ⟨?_, ?_, ?_⟩ <;> first | tauto | simp_all
  | stop cust =>
    simp [Link.on_event] at h
    obtain ⟨rfl, -⟩ := h
    refine ⟨?_, ?_, ?_⟩ <;> first | tauto | simp_all
  | read cust =>
    cases hr : s.reader with
    | none =>
      simp [Link.on_event, hr] at h
      obtain ⟨rfl, -⟩ := h
      refine ⟨?_, ?_, ?_⟩ <;> first | tauto | simp_all
    | some _ =>
      exfalso
      simp [Link.on_event, hr] at h
  | write cust p =>
    cases hw : s.writer with
    | none =>
      simp [Link.on_event, hw] at h
      obtain ⟨rfl, -⟩ := h
      refine ⟨?_, ?_, ?_⟩ <;> first | tauto | simp_all
    | some _ =>
      exfalso
      simp [Link.on_event, hw] at h

/-- Every reachable Link state satisfies the credit invariant. -/
theorem linkInv_reachable (s : Link) (hs : Link.Reachable s) : LinkInv s := by
  obtain ⟨w, n, hr⟩ := hs
  induction hr with
  | refl => exact linkInv_create w n
  | step _ hstep ih => exact linkInv_step _ _ _ _ _ ih hstep

/-- Whenever a Link handler emits a TECK frame, the resulting balance is
the deficit -1. -/
theorem link_teck_sent_deficit (s s' : Link) (e : LinkEvent) (fresh : Nat)
    (ms : List LinkMsg)
    (h : s.on_event e fresh = some (s', ms))
    (hm : ∃ tid un pl,
      LinkMsg.wireFrame s.wire (.entangled tid .TECK un pl) ∈ ms) :
    s'.balance = -1 := by
  obtain ⟨tid, un, pl, hmem⟩ := hm
  cases e with
  | frame f =>
    by_cases hstop : s.state = LinkState.Stop
    · simp [Link.on_event, hstop] at h
      obtain ⟨-, rfl⟩ := h
      simp at hmem
    · cases f with
      | reset peer =>
        rcases lt_trichotomy s.nonce peer with hcmp | hcmp | hcmp
        · simp [Link.on_event, hstop, hcmp] at h
          obtain ⟨-, rfl⟩ := h
          simp at hmem
        · simp [Link.on_event, hstop, hcmp] at h
          obtain ⟨-, rfl⟩ := h
          simp at hmem
        · have hnlt : ¬s.nonce < peer := not_lt.mpr hcmp.le
          simp [Link.on_event, hstop, hnlt, hcmp] at h
          obtain ⟨-, rfl⟩ := h
          simp at hmem
      | entangled tid2 i u fp =>
        cases i with
        | TICK =>
          by_cases hb1 : s.balance = 1
          · cases hr : s.reader with
            | none =>
              exfalso
              simp [Link.on_event, hstop, hb1, hr] at h
            | some r =>
              cases hi : s.inbound with
              | none =>
                exfalso
                simp [Link.on_event, hstop, hb1, hr, hi] at h
              | some q =>
                cases ho : s.outbound with
                | none =>
                  simp [Link.on_event, hstop, hb1, hr, hi, ho] at h
                  obtain ⟨-, rfl⟩ := h
                  simp at hmem
                | some q2 =>
                  simp [Link.on_event, hstop, hb1, hr, hi, ho] at h
                  obtain ⟨rfl, -⟩ := h
                  rfl
          · by_cases hb0 : s.balance = 0
            · cases ho : s.outbound with
              | none =>
                simp [Link.on_event, hstop, hb1, hb0, ho] at h
                obtain ⟨-, rfl⟩ := h
                simp at hmem
              | some q =>
                simp [Link.on_event, hstop, hb1, hb0, ho] at h
                obtain ⟨rfl, -⟩ := h
                rfl
            · exfalso
              simp [Link.on_event, hstop, hb1, hb0] at h
        | TECK =>
          cases hr : s.reader with
          | some r =>
            simp [Link.on_event, hstop, hr] at h
            obtain ⟨-, rfl⟩ := h
            simp at hmem
          | none =>
            by_cases hbz : s.balance = 0
            · simp [Link.on_event, hstop, hr, hbz] at h
              obtain ⟨-, rfl⟩ := h
              simp at hmem
            · exfalso
              simp [Link.on_event, hstop, hr, hbz] at h
        | TACK =>
          by_cases hbm : s.balance = -1
          · cases hw : s.writer with
            | some w =>
              simp [Link.on_event, hstop, hbm, hw] at h
              obtain ⟨-, rfl⟩ := h
              simp at hmem
            | none =>
              simp [Link.on_event, hstop, hbm, hw] at h
              obtain ⟨-, rfl⟩ := h
              simp at hmem
          · exfalso
            simp [Link.on_event, hstop, hbm] at h
        | RTECK =>
          simp [Link.on_event, hstop] at h
          obtain ⟨-, rfl⟩ := h
          simp at hmem
  | start cust =>
    simp [Link.on_event] at h
    obtain ⟨-, rfl⟩ := h
    simp at hmem
  | poll cust =>
    by_cases hl : s.state = LinkState.Live
    · simp [Link.on_event, hl] at h
      obtain ⟨-, rfl⟩ := h
      simp at hmem
    · simp [Link.on_event, hl] at h
      obtain ⟨-, rfl⟩ := h
      simp at hmem
  | stop cust =>
    simp [Link.on_event] at h
    obtain ⟨-, rfl⟩ := h
    simp at hmem
  | read cust =>
    cases hr : s.reader with
    | none =>
      simp [Link.on_event, hr] at h
      obtain ⟨-, rfl⟩ := h
      simp at hmem
    | some _ =>
      exfalso
      simp [Link.on_event, hr] at h
  | write cust p =>
    cases hw : s.writer with
    | none =>
      simp [Link.on_event, hw] at h
      obtain ⟨-, rfl⟩ := h
      simp at hmem
    | some _ =>
      exfalso
      simp [Link.on_event, hw] at h

/-- A Link not in Stop that receives a TECK while a reader is installed
ends with a surplus balance of +1. -/
theorem link_teck_recv_surplus (s s' : Link) (tid : TreeId) (u : IState)
    (p : Payload) (fresh : Nat) (ms : List LinkMsg)
    (hstop : s.state ≠ LinkState.Stop) (hr : s.reader.isSome = true)
    (h : s.on_event (.frame (.entangled tid .TECK u p)) fresh =
      some (s', ms)) :
    s'.balance = 1 := by
  cases hro : s.reader with
  | none => rw [hro] at hr; simp at hr
  | some r =>
    simp [Link.on_event, hstop, hro] at h
    obtain ⟨rfl, -⟩ := h
    rfl

/-- A Link not in Stop that receives a TICK while holding a surplus
delivers the staged inbound payload to the reader, clears both slots, and
ends with balance 0, or -1 when an outbound payload is then offered. -/
theorem link_tick_surplus_delivers (s s' : Link) (tid : TreeId)
    (u : IState) (p : Payload) (fresh : Nat) (ms : List LinkMsg)
    (hstop : s.state ≠ LinkState.Stop) (hb : s.balance = 1)
    (h : s.on_event (.frame (.entangled tid .TICK u p)) fresh =
      some (s', ms)) :
    (∃ r q, s.reader = some r ∧ s.inbound = some q ∧
      LinkMsg.linkToPortWrite r q ∈ ms ∧ s'.reader = none ∧
      s'.inbound = none) ∧
    (s.outbound = none → s'.balance = 0) ∧
    (s.outbound.isSome = true → s'.balance = -1) := by
  cases hro : s.reader with
  | none =>
    exfalso
    simp [Link.on_event, hstop, hb, hro] at h
  | some r =>
    cases hio : s.inbound with
    | none =>
      exfalso
      simp [Link.on_event, hstop, hb, hro, hio] at h
    | some q =>
      cases ho : s.outbound with
      | none =>
        simp [Link.on_event, hstop, hb, hro, hio, ho] at h
        obtain ⟨rfl, rfl⟩ := h
        refine ⟨⟨r, q, rfl, rfl, by simp, rfl, rfl⟩, fun _ => rfl, ?_⟩
        intro hx
        simp at hx
      | some q2 =>
        simp [Link.on_event, hstop, hb, hro, hio, ho] at h
        obtain ⟨rfl, rfl⟩ := h
        refine ⟨⟨r, q, rfl, rfl, by simp, rfl, rfl⟩, ?_, fun _ => rfl⟩
        intro hx
        exact Option.noConfusion hx

/-- A Link not in Stop holding a deficit that receives a TACK or an RTECK
ends with balance 0 (for TACK the writer slot is occupied in any state
satisfying the credit invariant). -/
theorem link_tack_rteck_release (s s' : Link) (tid : TreeId) (u : IState)
    (p : Payload) (fresh : Nat) (ms : List LinkMsg) (hinv : LinkInv s)
    (hstop : s.state ≠ LinkState.Stop) (hb : s.balance = -1)
    (h : s.on_event (.frame (.entangled tid .TACK u p)) fresh =
        some (s', ms) ∨
      s.on_event (.frame (.entangled tid .RTECK u p)) fresh =
        some (s', ms)) :
    s'.balance = 0 := by
  obtain ⟨-, -, h3⟩ := hinv
  rcases h with h | h
  · cases hw : s.writer with
    | none =>
      have hws := h3 hb
      rw [hw] at hws
      simp at hws
    | some w =>
      simp [Link.on_event, hstop, hb, hw] at h
      obtain ⟨rfl, -⟩ := h
      rfl
  · simp [Link.on_event, hstop] at h
    obtain ⟨rfl, -⟩ := h
    rfl

/-- C2: in every reachable Link state the balance is one of -1, 0, +1,
and every completed event follows the four-phase rule: emitting a TECK
leaves balance -1; receiving a TECK with a reader installed leaves
balance +1; a TICK arriving with surplus +1 delivers the staged inbound
payload to the reader and restores 0 (immediately re-entering the deficit
-1 exactly when a staged outbound is then offered as a TECK); and a TACK
or RTECK arriving with deficit -1 restores 0. -/
theorem c2_balance_four_phase_rule (s : Link) (hs : Link.Reachable s) :
    (s.balance = -1 ∨ s.balance = 0 ∨ s.balance = 1) ∧
    (∀ (e : LinkEvent) (fresh : Nat) (s' : Link) (ms : List LinkMsg),
      s.on_event e fresh = some (s', ms) →
      ((∃ tid un pl, LinkMsg.wireFrame s.wire
          (.entangled tid .TECK un pl) ∈ ms) → s'.balance = -1) ∧
      (∀ tid un pl, e = .frame (.entangled tid .TECK un pl) →
        s.state ≠ .Stop → s.reader.isSome = true → s'.balance = 1) ∧
      (∀ tid un pl, e = .frame (.entangled tid .TICK un pl) →
        s.state ≠ .Stop → s.balance = 1 →
        (∃ r q, s.reader = some r ∧ s.inbound = some q ∧
          LinkMsg.linkToPortWrite r q ∈ ms ∧ s'.reader = none ∧
          s'.inbound = none) ∧
        (s.outbound = none → s'.balance = 0) ∧
        (s.outbound.isSome = true → s'.balance = -1)) ∧
      (∀ tid un pl, s.balance = -1 → s.state ≠ .Stop →
        (e = .frame (.entangled tid .TACK un pl) ∨
         e = .frame (.entangled tid .RTECK un pl)) →
        s'.balance = 0)) := by
  have hinv := linkInv_reachable s hs
  refine ⟨hinv.1, fun e fresh s' ms h => ⟨?_, ?_, ?_, ?_⟩⟩
  · exact fun hm => link_teck_sent_deficit s s' e fresh ms h hm
  · rintro tid un pl rfl hstop hr
    exact link_teck_recv_surplus s s' tid un pl fresh ms hstop hr h
  · rintro tid un pl rfl hstop hb
    exact link_tick_surplus_delivers s s' tid un pl fresh ms hstop hb h
  · rintro tid un pl hb hstop (rfl | rfl)
    · exact link_tack_rteck_release s s' tid un pl fresh ms hinv hstop hb
        (Or.inl h)
    · exact link_tack_rteck_release s s' tid un pl fresh ms hinv hstop hb
        (Or.inr h)

/-- Witness for c2_balance_four_phase_rule at the freshly created link. -/
theorem c2_balance_witness :
    (Link.create 0 5).balance = -1 ∨ (Link.create 0 5).balance = 0 ∨
      (Link.create 0 5).balance = 1 :=
  (c2_balance_four_phase_rule (Link.create 0 5)
    ⟨0, 5, Link.Reach.refl (Link.create 0 5)⟩).1

/-- C3: a Link that is not in state Stop receiving Reset(peer_nonce) enters
Init and compares its local nonce to the peer's: if local is smaller it
sends nothing on the wire; if local is larger it sends
Entangled(TreeId(local_nonce), i=TICK, u=TICK); on a tie it replaces its
nonce with the freshly drawn 32-bit value and sends Reset of that value. -/
theorem c3_reset_compares_nonces (s : Link) (peer fresh : Nat)
    (hs : s.state ≠ LinkState.Stop) :
    (s.nonce < peer →
      s.on_event (.frame (.reset peer)) fresh =
        some ({ s with state := .Init }, [])) ∧
    (peer < s.nonce →
      s.on_event (.frame (.reset peer)) fresh =
        some ({ s with state := .Init },
          [LinkMsg.wireFrame s.wire
            (.entangled { nonce := s.nonce } .TICK .TICK emptyPayload)])) ∧
    (s.nonce = peer →
      s.on_event (.frame (.reset peer)) fresh =
        some ({ s with state := .Init, nonce := fresh },
          [LinkMsg.wireFrame s.wire (.reset fresh)])) := by
  refine ⟨fun h => ?_, fun h => ?_, fun h => ?_⟩ <;>
    simp_all [Link.on_event]
  omega

/-- Witness for c3_reset_compares_nonces at the concrete link linkA. -/
theorem c3_reset_witness :
    linkA.state ≠ LinkState.Stop ∧ linkA.nonce = 5 ∧
    linkA.on_event (.frame (.reset 5)) 11 =
      some ({ linkA with state := .Init, nonce := 11 },
        [LinkMsg.wireFrame linkA.wire (.reset 11)]) :=
  ⟨by decide, by decide,
    (c3_reset_compares_nonces linkA 5 11 (by decide)).2.2 (by decide)⟩

/-- C4: a Link not in Stop receiving Entangled with i-state TECK stages
the frame's payload into inbound, replies Entangled(TreeId(local nonce),
i=TACK, u=TECK) and sets balance to +1 when a reader is installed; with no
reader it replies i=RTECK, u=TECK and the balance, asserted 0, is
unchanged (the assert fails otherwise). -/
theorem c4_teck_reader_cases (s : Link) (tid : TreeId) (u : IState)
    (p : Payload) (fresh : Nat) (hs : s.state ≠ LinkState.Stop) :
    (∀ r, s.reader = some r →
      s.on_event (.frame (.entangled tid .TECK u p)) fresh =
        some ({ s with state := .Live, inbound := some p, balance := 1 },
          [LinkMsg.wireFrame s.wire
            (.entangled { nonce := s.nonce } .TACK .TECK emptyPayload)])) ∧
    (s.reader = none → s.balance = 0 →
      s.on_event (.frame (.entangled tid .TECK u p)) fresh =
        some ({ s with state := .Live },
          [LinkMsg.wireFrame s.wire
            (.entangled { nonce := s.nonce } .RTECK .TECK emptyPayload)])) ∧
    (s.reader = none → s.balance ≠ 0 →
      s.on_event (.frame (.entangled tid .TECK u p)) fresh = none) := by
  refine ⟨fun r hr => ?_, fun hr hb => ?_, fun hr hb => ?_⟩ <;>
    simp_all [Link.on_event]

/-- Witness for c4_teck_reader_cases at the concrete link linkR. -/
theorem c4_teck_witness :
    linkR.state ≠ LinkState.Stop ∧ linkR.reader = some 3 ∧
    linkR.on_event (.frame (.entangled { nonce := 9 } .TECK .TICK payB)) 0 =
      some ({ linkR with state := .Live, inbound := some payB, balance := 1 },
        [LinkMsg.wireFrame linkR.wire
          (.entangled { nonce := 5 } .TACK .TECK emptyPayload)]) :=
  ⟨by decide, by decide,
    (c4_teck_reader_cases linkR { nonce := 9 } .TICK payB 0 (by decide)).1 3
      (by decide)⟩

/-- C5: a Link not in Stop receiving Entangled with i-state TACK, under
the asserted precondition balance = -1 and with a writer installed,
acknowledges the writer with LinkToPortRead, clears the writer and
outbound slots, sets balance to 0 and replies
Entangled(TreeId(local nonce), i=TICK, u=TACK). -/
theorem c5_tack_acks_writer (s : Link) (tid : TreeId) (u : IState)
    (p : Payload) (fresh : Nat) (w : Cap) (hs : s.state ≠ LinkState.Stop)
    (hb : s.balance = -1) (hw : s.writer = some w) :
    s.on_event (.frame (.entangled tid .TACK u p)) fresh =
      some ({ s with state := .Live, writer := none, outbound := none,
                     balance := 0 },
        [LinkMsg.linkToPortRead w,
         LinkMsg.wireFrame s.wire
           (.entangled { nonce := s.nonce } .TICK .TACK emptyPayload)]) := by
  simp_all [Link.on_event]

/-- Witness for c5_tack_acks_writer at the concrete link linkW. -/
theorem c5_tack_witness :
    linkW.state ≠ LinkState.Stop ∧ linkW.balance = -1 ∧
    linkW.writer = some 3 ∧
    linkW.on_event (.frame (.entangled { nonce := 9 } .TACK .TECK payB)) 0 =
      some ({ linkW with state := .Live, writer := none, outbound := none,
                         balance := 0 },
        [LinkMsg.linkToPortRead 3,
         LinkMsg.wireFrame linkW.wire
           (.entangled { nonce := 5 } .TICK .TACK emptyPayload)]) :=
  ⟨by decide, by decide, by decide,
    c5_tack_acks_writer linkW { nonce := 9 } .TECK payB 0 3 (by decide)
      (by decide) (by decide)⟩

/-- C6: a Link not in Stop receiving Entangled with i-state RTECK replies
Entangled(TreeId(local nonce), i=TICK, u=RTECK) and sets balance to 0,
leaving the reader, inbound, writer and outbound slots untouched; a staged
outbound payload is then re-sent as a TECK on the next inbound TICK. -/
theorem c6_rteck_releases_deficit (s : Link) (tid : TreeId) (u : IState)
    (p : Payload) (fresh : Nat) (hs : s.state ≠ LinkState.Stop) :
    s.on_event (.frame (.entangled tid .RTECK u p)) fresh =
      some ({ s with state := .Live, balance := 0 },
        [LinkMsg.wireFrame s.wire
          (.entangled { nonce := s.nonce } .TICK .RTECK emptyPayload)]) ∧
    (∀ q, s.outbound = some q → ∀ tid2 u2 p2 fresh2,
      Link.on_event { s with state := .Live, balance := 0 }
          (.frame (.entangled tid2 .TICK u2 p2)) fresh2 =
        some ({ s with state := .Live, balance := -1 },
          [LinkMsg.wireFrame s.wire
            (.entangled { nonce := s.nonce } .TECK .TICK q)])) := by
  constructor
  · simp_all [Link.on_event]
  · intro q hq tid2 u2 p2 fresh2
    simp_all [Link.on_event]

/-- Witness for c6_rteck_releases_deficit at the concrete link linkW. -/
theorem c6_rteck_witness :
    linkW.state ≠ LinkState.Stop ∧
    linkW.on_event (.frame (.entangled { nonce := 9 } .RTECK .TECK payB)) 0 =
      some ({ linkW with state := .Live, balance := 0 },
        [LinkMsg.wireFrame linkW.wire
          (.entangled { nonce := 5 } .TICK .RTECK emptyPayload)]) :=
  ⟨by decide,
    (c6_rteck_releases_deficit linkW { nonce := 9 } .TECK payB 0
      (by decide)).1⟩

/-- C8: a Port with its self-capability latched, on LinkToPortWrite:
if the tx host channel is empty it pushes the payload into tx and sends
Read(self) to the Link; if tx is non-empty it re-enqueues the same event
to itself, touching neither tx nor the Link. -/
theorem c8_port_write_backpressure (s : Port) (p : Payload) (my : Cap)
    (hm : s.myself = some my) :
    (s.tx = [] →
      s.on_event (.linkToPortWrite p) =
        some ({ s with tx := [p] }, [PortMsg.toLink s.link (.read my)])) ∧
    (s.tx ≠ [] →
      s.on_event (.linkToPortWrite p) =
        some (s, [PortMsg.toSelf (.linkToPortWrite p)])) := by
  refine ⟨fun h => ?_, fun h => ?_⟩ <;> simp_all [Port.on_event]

/-- Witness for c8_port_write_backpressure at the concrete port portA. -/
theorem c8_port_write_witness :
    portA.myself = some 6 ∧ portA.tx = [] ∧
    portA.on_event (.linkToPortWrite payA) =
      some ({ portA with tx := [payA] },
        [PortMsg.toLink portA.link (.read 6)]) :=
  ⟨by decide, by decide,
    (c8_port_write_backpressure portA payA 6 (by decide)).1 (by decide)⟩

/-- C10: a Port whose self-capability is not yet latched silently discards
LinkToPortWrite and LinkToPortRead: the state is unchanged, no message is
sent anywhere, the event is not re-enqueued, and no panic occurs. -/
theorem c10_port_discards_before_init (s : Port) (p : Payload)
    (hm : s.myself = none) :
    s.on_event (.linkToPortWrite p) = some (s, []) ∧
    s.on_event .linkToPortRead = some (s, []) := by
  constructor <;> simp_all [Port.on_event]

/-- C1 counterexample: in the reachable state hubC1 the Cell has payB
staged with remaining routes exactly Port(0) and port 0's reader absent;
processing PortToHubRead(port 0) delivers HubToPortWrite to port 0 and
removes the route, but the same pass sends no HubToCellRead and leaves the
Cell writer staged, contrary to the claim that the writer is acknowledged
within that same event's try_everyone pass. -/
theorem c1_deferred_ack_counterexample :
    Hub.runEvents (Hub.initial [1, 2, 3])
        [.init 9, .cellToHubWrite 4 payA, .cellToHubRead 4,
         .cellToHubWrite 4 payB] =
      some (hubC1, [HubMsg.hubToPortWrite 1 9 payA,
                    HubMsg.hubToCellRead 4]) ∧
    Hub.Reach (Hub.initial [1, 2, 3]) hubC1 ∧
    hubC1.cell_out = { writer := some 4, payload := some payB,
                       send_to := [Route.port 0] } ∧
    hubC1.port_out[0]? = some { reader := none } ∧
    hubC1.on_event (.portToHubRead 1) =
      some (hubC1', [HubMsg.hubToPortWrite 1 9 payB]) ∧
    hubC1'.cell_out.writer = some 4 ∧
    hubC1'.cell_out.payload = some payB ∧
    HubMsg.hubToCellRead 4 ∉ [HubMsg.hubToPortWrite 1 9 payB] := by
  have hrun : Hub.runEvents (Hub.initial [1, 2, 3])
      [.init 9, .cellToHubWrite 4 payA, .cellToHubRead 4,
       .cellToHubWrite 4 payB] =
      some (hubC1, [HubMsg.hubToPortWrite 1 9 payA,
                    HubMsg.hubToCellRead 4]) := by decide
  exact ⟨hrun, Hub.runEvents_reach hrun, by decide, by decide,
    by decide, by decide, by decide, by decide⟩

/-- C1 (amended): in the staged scenario, processing PortToHubRead(port 0)
delivers HubToPortWrite to port 0 and removes the Port(0) route within
that pass, while the Cell writer stays staged and is acknowledged
(HubToCellRead, writer and payload cleared) on the next try_everyone
pass; in general an acknowledgement is sent only for a staged writer
whose route list is already empty, and it clears that writer slot (for
both the Cell direction and the acknowledged port's direction), so a
writer is acknowledged at most once per staging and never before its
routes are satisfied. -/
theorem c1_routes_then_deferred_ack :
    (hubC1.on_event (.portToHubRead 1) =
        some (hubC1', [HubMsg.hubToPortWrite 1 9 payB]) ∧
      hubC1'.cell_out.send_to = [] ∧
      hubC1'.cell_out.writer = some 4 ∧
      hubC1'.try_everyone = some (hubC1'', [HubMsg.hubToCellRead 4]) ∧
      hubC1''.cell_out.writer = none ∧ hubC1''.cell_out.payload = none) ∧
    (∀ (h h' : Hub) (ms : List HubMsg) (c : Cap),
      h.try_everyone = some (h', ms) → HubMsg.hubToCellRead c ∈ ms →
      h.cell_out.writer = some c ∧ h.cell_out.payload.isSome = true ∧
      h.cell_out.send_to = [] ∧ h'.cell_out.writer = none ∧
      h'.cell_out.payload = none) ∧
    (∀ (h h' : Hub) (ms : List HubMsg) (pt my : Cap),
      h.try_everyone = some (h', ms) → HubMsg.hubToPortRead pt my ∈ ms →
      ∃ i : Nat, ∃ pi : PortIn, h.port_in[i]? = some pi ∧
        pi.writer = some pt ∧ pi.payload.isSome = true ∧
        pi.send_to = [] ∧
        ∃ pc : PortIn, h'.port_in[i]? = some pc ∧
          pc.writer = none ∧ pc.payload = none) :=
  ⟨⟨by decide, by decide, by decide, by decide, by decide, by decide⟩,
   fun h h' ms c ht hm => (Hub.ack_discipline h h' ms ht).1 c hm,
   fun h h' ms pt my ht hm => (Hub.ack_discipline h h' ms ht).2 pt my hm⟩

/-- Witness for c1_routes_then_deferred_ack: the Cell acknowledgement
clause applied to the concrete deferred pass on hubC1', and the port
acknowledgement clause applied to the concrete pass acking hubP's staged
port-0 writer. -/
theorem c1_routes_witness :
    (hubC1'.cell_out.writer = some 4 ∧
      hubC1'.cell_out.payload.isSome = true ∧
      hubC1'.cell_out.send_to = [] ∧
      hubC1''.cell_out.writer = none ∧
      hubC1''.cell_out.payload = none) ∧
    (∃ i : Nat, ∃ pi : PortIn, hubP.port_in[i]? = some pi ∧
      pi.writer = some 1 ∧ pi.payload.isSome = true ∧
      pi.send_to = [] ∧
      ∃ pc : PortIn, hubP'.port_in[i]? = some pc ∧
        pc.writer = none ∧ pc.payload = none) :=
  ⟨c1_routes_then_deferred_ack.2.1 hubC1' hubC1''
     [HubMsg.hubToCellRead 4] 4 (by decide) (by decide),
   c1_routes_then_deferred_ack.2.2 hubP hubP'
     [HubMsg.hubToPortRead 1 9] 1 9 (by decide) (by decide)⟩

/-- C7 counterexample: hubC7 is reachable, has no pending route at all
(so no pending route has its receiver present), yet try_everyone sends
HubToCellRead and changes the state, contrary to the claim that such a
call sends nothing and leaves the Hub unchanged. -/
theorem c7_not_noop_counterexample :
    Hub.runEvents (Hub.initial [1, 2, 3]) [.init 9, .cellToHubWrite 4 payA] =
      some (hubC7, [HubMsg.hubToPortWrite 1 9 payA]) ∧
    Hub.Reach (Hub.initial [1, 2, 3]) hubC7 ∧
    hubC7.pendingRoutes = [] ∧
    hubC7.try_everyone = some (hubC7', [HubMsg.hubToCellRead 4]) ∧
    hubC7' ≠ hubC7 ∧
    ([HubMsg.hubToCellRead 4] : List HubMsg) ≠ [] := by
  have hrun : Hub.runEvents (Hub.initial [1, 2, 3])
      [.init 9, .cellToHubWrite 4 payA] =
      some (hubC7, [HubMsg.hubToPortWrite 1 9 payA]) := by decide
  exact ⟨hrun, Hub.runEvents_reach hrun, by decide, by decide,
    by decide, by decide⟩

/-- C7 (amended): try_everyone may be called any number of times; a call
in a state in which every pending route's receiver slot is absent and
every staged writer still has a non-empty route list sends no messages
and leaves the entire Hub state unchanged.  (A staged writer whose route
list has already been emptied is instead acknowledged by the call.) -/
theorem c7_try_everyone_noop_when_stalled (h : Hub)
    (hst : ∀ r ∈ h.pendingRoutes,
      Hub.routeStalled h.cell_in h.port_out r = true)
    (hwr : h.writersHaveRoutes = true)
    (hlen : h.ports.length ≤ h.port_in.length) :
    h.try_everyone = some (h, []) := by
  simp only [Hub.writersHaveRoutes, Bool.and_eq_true,
    List.all_eq_true] at hwr
  obtain ⟨hwc, hwp⟩ := hwr
  simp only [Hub.try_everyone]
  cases hmy : h.myself with
  | none => rfl
  | some myself =>
    have hcp : Hub.cellPhase myself h.cell_out h.cell_in h.port_out =
        some (h.cell_out, h.cell_in, h.port_out, []) := by
      simp only [Hub.cellPhase]
      cases hw : h.cell_out.writer with
      | none => rfl
      | some cell =>
        cases hp : h.cell_out.payload with
        | none => rfl
        | some p =>
          have hie : h.cell_out.send_to.isEmpty = false := by
            simp only [hw, hp, Option.isSome_some, Bool.and_self,
              Bool.not_true, Bool.false_or, Bool.not_eq_eq_eq_not,
              Bool.not_false] at hwc
            simpa using hwc
          have hstc : ∀ r ∈ h.cell_out.send_to,
              Hub.routeStalled h.cell_in h.port_out r = true := fun r hr =>
            hst r (List.mem_append_left _ hr)
          rw [hie]
          simp only [Bool.false_eq_true, if_false]
          rw [Hub.sendToRoutes_stalled myself p h.cell_out.send_to
            h.cell_in h.port_out hstc]
          dsimp only
          rw [← hw, ← hp]
    dsimp only
    rw [hcp]
    dsimp only
    have hpins : ∀ i ∈ List.range h.ports.length, ∃ pi : PortIn,
        h.port_in[i]? = some pi ∧
        (pi.writer.isSome = true → pi.payload.isSome = true →
          pi.send_to ≠ [] ∧ ∀ r ∈ pi.send_to,
            Hub.routeStalled h.cell_in h.port_out r = true) := by
      intro i hi
      have hilt : i < h.port_in.length :=
        lt_of_lt_of_le (List.mem_range.mp hi) hlen
      refine ⟨h.port_in[i], List.getElem?_eq_getElem hilt, ?_⟩
      intro hwi hpi
      have hmem : h.port_in[i] ∈ h.port_in := List.getElem_mem hilt
      have hall := hwp _ hmem
      constructor
      · simp only [hwi, hpi, Bool.and_self, Bool.not_true,
          Bool.false_or] at hall
        intro hcontra
        rw [hcontra] at hall
        simp at hall
      · intro r hr
        refine hst r (List.mem_append_right _ ?_)
        rw [List.mem_flatten]
        exact ⟨h.port_in[i].send_to,
          List.mem_map_of_mem PortIn.send_to hmem, hr⟩
    rw [Hub.tryPortsIdx_idle myself (List.range h.ports.length) h.port_in
      h.cell_in h.port_out hpins]
    dsimp only
    rw [← hmy]
    rfl

/-- Witness for c7_try_everyone_noop_when_stalled at the concrete hub
hubC7w, whose single pending route Port(0) is stalled. -/
theorem c7_noop_witness : hubC7w.try_everyone = some (hubC7w, []) :=
  c7_try_everyone_noop_when_stalled hubC7w (by decide) (by decide)
    (by decide)

/-- C9 counterexample: Hub.create with ports 1, 2, 3 does not leave every
PortOut reader slot empty; each is primed with its own port capability. -/
theorem c9_portout_primed_counterexample :
    (Hub.initial [1, 2, 3]).port_out.all (fun z => z.reader.isNone)
      = false ∧
    (Hub.initial [1, 2, 3]).port_out =
      [{ reader := some 1 }, { reader := some 2 },
       { reader := some 3 }] := by
  decide

/-- C9 (amended): Hub.create constructs CellIn.reader, CellOut.writer and
payload, and every PortIn writer and payload as None with every route
list empty, but primes every PortOut reader slot with that port's
capability; it then sends Init to itself followed by HubToPortRead(self)
to each port. -/
theorem c9_create_slots (ps : List Cap) (hub : Cap) :
    (Hub.initial ps).myself = none ∧
    (Hub.initial ps).cell_in.reader = none ∧
    (Hub.initial ps).cell_out.writer = none ∧
    (Hub.initial ps).cell_out.payload = none ∧
    (Hub.initial ps).cell_out.send_to = [] ∧
    (Hub.initial ps).port_in = ps.map (fun _ =>
      { writer := none, payload := none, send_to := [] }) ∧
    (Hub.initial ps).port_out = ps.map (fun port =>
      { reader := some port }) ∧
    Hub.createMsgs hub ps = HubMsg.selfInit hub hub ::
      ps.map (fun port => HubMsg.hubToPortRead port hub) :=
  ⟨rfl, rfl, rfl, rfl, rfl, rfl, rfl, rfl⟩

/-- Witness for c9_create_slots at the concrete port set 1, 2, 3. -/
theorem c9_create_slots_witness :
    (Hub.initial [1, 2, 3]).port_out = [1, 2, 3].map (fun port =>
      { reader := some port }) ∧
    Hub.createMsgs 9 [1, 2, 3] = HubMsg.selfInit 9 9 ::
      [1, 2, 3].map (fun port => HubMsg.hubToPortRead port 9) :=
  ⟨(c9_create_slots [1, 2, 3] 9).2.2.2.2.2.2.1,
   (c9_create_slots [1, 2, 3] 9).2.2.2.2.2.2.2⟩

/-- Witness for c10_port_discards_before_init at the concrete port portU. -/
theorem c10_port_discards_witness :
    portU.myself = none ∧
    portU.on_event (.linkToPortWrite payA) = some (portU, []) ∧
    portU.on_event .linkToPortRead = some (portU, []) :=
  ⟨by decide,
    (c10_port_discards_before_init portU payA (by decide)).1,
    (c10_port_discards_before_init portU payA (by decide)).2⟩

end Ether
